import Mathlib

set_option maxHeartbeats 1000000

/-!
Verification development for the voice-agent STT service.

The definitions below are a shallow embedding of
`backend/services/stt/stt_service.py` and
`backend/services/stt/indicconformer_backend.py`:
pure functions become Lean functions, numpy/torch float arrays become
lists of rationals (for the audio path) or reals (for the
log-probability path), and Python exceptions become `Except` values.
-/

/-! ## PCM conversion: `pcm16_to_float32` (stt_service.py, lines 294-297) -/

/-- Signed 16-bit integer decoded from two little-endian bytes,
as `np.frombuffer(, dtype=np.int16)` reads each sample. -/
def int16OfLE (b0 b1 : Fin 256) : ℤ :=
  if b0.val + 256 * b1.val < 32768 then ((b0.val + 256 * b1.val : ℕ) : ℤ)
  else ((b0.val + 256 * b1.val : ℕ) : ℤ) - 65536

/-- The sample list produced by `samples.astype(np.float32) / 32768.0`,
one rational per consecutive byte pair. -/
def pcm16Samples : List (Fin 256) → List ℚ
  | [] => []
  | [_] => []
  | b0 :: b1 :: rest => ((int16OfLE b0 b1 : ℤ) : ℚ) / 32768 :: pcm16Samples rest

/-- `pcm16_to_float32`: `np.frombuffer` raises `ValueError` when the byte
count is not a multiple of the two-byte element size, modelled as `none`. -/
def pcm16_to_float32 (pcmBytes : List (Fin 256)) : Option (List ℚ) :=
  if pcmBytes.length % 2 = 0 then some (pcm16Samples pcmBytes) else none

/-! ## CTC decoding: `IndicConformerCTC.decode_ctc`
(indicconformer_backend.py, lines 184-238) -/

/-- Per-language decoding assets loaded by `_load_vocab`: the boolean
language mask over the joint vocabulary and the per-language vocabulary. -/
structure CTCModel where
  language_mask : List Bool
  vocab : List String

/-- The special tokens skipped by `decode_ctc` when mapping indices. -/
def specialTokens : List String := ["<unk>", "<blk>", "<blank>", "|"]

/-- `logprobs[:, :, mask]` on one time step: keep the columns whose mask
entry is `True`. -/
def maskFilterRow (mask : List Bool) (row : List ℝ) : List ℝ :=
  ((mask.zip row).filter (fun p => p.1)).map (fun p => p.2)

/-- `torch.log_softmax(dim=-1)` on one time step:
`x i - log (sum j, exp (x j))`. -/
noncomputable def logSoftmaxRow (row : List ℝ) : List ℝ :=
  row.map (fun v => v - Real.log ((row.map Real.exp).sum))

/-- Scan used by `argmaxIdx`, keeping the first index of the running
maximum (ties keep the earlier index, as `np.argmax` does). -/
noncomputable def argmaxGo (bestIdx : ℕ) (bestVal : ℝ) (curIdx : ℕ) :
    List ℝ → ℕ
  | [] => bestIdx
  | v :: rest =>
    if bestVal < v then argmaxGo curIdx v (curIdx + 1) rest
    else argmaxGo bestIdx bestVal (curIdx + 1) rest

/-- `np.argmax` over one time step (first index attaining the maximum). -/
noncomputable def argmaxIdx : List ℝ → ℕ
  | [] => 0
  | v :: rest => argmaxGo 0 v 1 rest

/-- The collapse loop of `decode_ctc`: `previous` starts at `-1` and each
prediction is appended exactly when it differs from `previous`. -/
def collapseFrom (previous : ℤ) : List ℕ → List ℕ
  | [] => []
  | p :: rest =>
    if (p : ℤ) ≠ previous then p :: collapseFrom (p : ℤ) rest
    else collapseFrom (p : ℤ) rest

/-- The token-mapping loop of `decode_ctc`: skip the blank id 256, skip
indices outside the vocabulary, skip special tokens, keep the rest. -/
def ctcTokenParts (vocab : List String) : List ℕ → List String
  | [] => []
  | idx :: rest =>
    if idx = 256 then ctcTokenParts vocab rest
    else if h : idx < vocab.length then
      if vocab.get ⟨idx, h⟩ ∈ specialTokens then ctcTokenParts vocab rest
      else vocab.get ⟨idx, h⟩ :: ctcTokenParts vocab rest
    else ctcTokenParts vocab rest

/-- `IndicConformerCTC.decode_ctc`, translated statement by statement
(batch dimension of size one elided: `logprobs` is the time-by-vocab
matrix and `squeeze(0)` is implicit). -/
noncomputable def decode_ctc (m : CTCModel) (logprobs : List (List ℝ)) :
    String :=
  let filtered := logprobs.map (maskFilterRow m.language_mask)
  let normalized := filtered.map logSoftmaxRow
  let predictions := normalized.map argmaxIdx
  let decoded := collapseFrom (-1) predictions
  let parts := ctcTokenParts m.vocab decoded
  ((String.join parts).replace "▁" " ").trim

/-! ### The eight decoding steps as the spec names them,
to be compared with `decode_ctc`. -/

/-- Spec step 5 (tail): drop an index equal to its immediate predecessor. -/
def collapseTail (prev : ℕ) : List ℕ → List ℕ
  | [] => []
  | p :: rest =>
    if p = prev then collapseTail p rest else p :: collapseTail p rest

/-- Spec step 5: standard CTC collapsing, the first token always kept. -/
def collapseRepeats : List ℕ → List ℕ
  | [] => []
  | p :: rest => p :: collapseTail p rest

/-- Spec step 6: drop the designated blank index (256). -/
def dropBlankIndices (l : List ℕ) : List ℕ :=
  l.filter (fun idx => idx != 256)

/-- Spec step 7: map the surviving indices through the per-language
vocabulary table (indices with no usable table entry yield no token). -/
def mapSurvivingTokens (vocab : List String) (idxs : List ℕ) :
    List String :=
  idxs.filterMap (fun idx =>
    match vocab.get? idx with
    | some token => if token ∈ specialTokens then none else some token
    | none => none)

/-- Spec step 8: concatenate, turn the continuation marker into a literal
space, trim surrounding whitespace. -/
def joinTokens (parts : List String) : String :=
  ((String.join parts).replace "▁" " ").trim

/-- The spec's eight-step pipeline: mask selection (the model's
`language_mask`), column filtering, log-softmax re-normalization,
per-step arg-max, repeat collapsing, blank dropping, vocabulary mapping,
concatenation. -/
noncomputable def ctcSpecPipeline (m : CTCModel)
    (logprobs : List (List ℝ)) : String :=
  joinTokens (mapSurvivingTokens m.vocab (dropBlankIndices (collapseRepeats
    (((logprobs.map (maskFilterRow m.language_mask)).map
      logSoftmaxRow).map argmaxIdx))))

/-! ### Helper lemmas about the decode loops -/

lemma collapseFrom_natCast (q : ℕ) (l : List ℕ) :
    collapseFrom (q : ℤ) l = collapseTail q l := by
  induction l generalizing q with
  | nil => rfl
  | cons p rest ih =>
    simp only [collapseFrom, collapseTail]
    by_cases h : p = q
    · subst h
      simp [ih]
    · have h2 : (p : ℤ) ≠ (q : ℤ) := by exact_mod_cast h
      simp [h, h2, ih]

lemma collapseFrom_neg_one (l : List ℕ) :
    collapseFrom (-1) l = collapseRepeats l := by
  cases l with
  | nil => rfl
  | cons p rest =>
    simp only [collapseFrom, collapseRepeats]
    have h : (p : ℤ) ≠ -1 := by omega
    simp [h, collapseFrom_natCast]

lemma ctcTokenParts_eq_filter_map (vocab : List String) (l : List ℕ) :
    ctcTokenParts vocab l = mapSurvivingTokens vocab (dropBlankIndices l)
    := by
  induction l with
  | nil => rfl
  | cons idx rest ih =>
    simp only [ctcTokenParts, dropBlankIndices, List.filter,
      mapSurvivingTokens] at *
    by_cases h256 : idx = 256
    · simp [h256, ih]
    · have hb : (idx != 256) = true := by simpa using h256
      rw [hb]
      simp only [List.filterMap]
      by_cases hlen : idx < vocab.length
      · rw [dif_pos hlen, List.get?_eq_get hlen]
        simp only [List.get_eq_getElem]
        by_cases hsp : vocab[idx] ∈ specialTokens
        · simp [h256, hsp, ih]
        · simp [h256, hsp, ih]
      · rw [dif_neg hlen, List.get?_eq_none.mpr (le_of_not_lt hlen)]
        simp [ih]

/-! ### Log-softmax helper lemmas -/

lemma list_sum_map_div (l : List ℝ) (c : ℝ) :
    (l.map (fun v => v / c)).sum = l.sum / c := by
  induction l with
  | nil => simp
  | cons a t ih => simp [ih, add_div]

lemma logSoftmaxRow_exp_sum (row : List ℝ) (h : row ≠ []) :
    ((logSoftmaxRow row).map Real.exp).sum = 1 := by
  have hS : 0 < (row.map Real.exp).sum := by
    apply List.sum_pos
    · intro x hx
      obtain ⟨v, _, rfl⟩ := List.mem_map.mp hx
      exact Real.exp_pos v
    · simpa using h
  have h1 : (logSoftmaxRow row).map Real.exp
      = (row.map Real.exp).map (fun v => v / (row.map Real.exp).sum) := by
    simp only [logSoftmaxRow, List.map_map]
    apply List.map_congr_left
    intro a _
    simp [Function.comp, Real.exp_sub, Real.exp_log hS]
  rw [h1, list_sum_map_div, div_self (ne_of_gt hS)]

lemma logSoftmaxRow_idem (row : List ℝ) :
    logSoftmaxRow (logSoftmaxRow row) = logSoftmaxRow row := by
  by_cases h : row = []
  · subst h; rfl
  · show (logSoftmaxRow row).map
        (fun v => v - Real.log (((logSoftmaxRow row).map Real.exp).sum))
      = logSoftmaxRow row
    rw [logSoftmaxRow_exp_sum row h]
    simp [Real.log_one]

/-! ## STT routing: `stt_service.py` -/

/-- `TranscriptionResult` dataclass (stt_service.py, lines 40-45). -/
structure TranscriptionResult where
  text : String
  confidence : ℚ
  language : String
  backend : String
deriving DecidableEq

/-- The two backends registered by `STTRouter._register_backends`. -/
inductive BackendKind where
  | indicconformer
  | whisper
deriving DecidableEq

/-- `IndicConformerBackend.INDIC_LANGUAGES` (stt_service.py, lines 80-103),
the value of `supported_languages` for the Indic backend. -/
def indicSupportedLanguages : List String :=
  ["hi", "as", "bn", "brx", "doi", "gu", "kn", "kok", "ks", "mai", "ml",
   "mni", "mr", "ne", "or", "pa", "sa", "sat", "sd", "ta", "te", "ur"]

/-- `WhisperBackend.supported_languages` (stt_service.py, lines 165-168);
never consulted by the router's dispatch logic. -/
def whisperSupportedLanguages : List String := ["en", "hi", "auto"]

/-- The router's state after `__init__`: which names are present in the
`backends` dict, the Indic backend's construction-time `_language`, and
`_default_backend`. -/
structure RouterState where
  indicRegistered : Bool
  whisperRegistered : Bool
  indicLanguage : String
  defaultBackend : Option String
deriving DecidableEq

/-- `STTRouter._register_backends` (lines 237-252): iterate over
`[IndicConformerBackend(), WhisperBackend('base')]` in priority order,
registering each backend whose `is_available()` holds, and set
`_default_backend` to the first one registered. The Indic backend is
constructed with its default language `'hi'`. -/
def registerBackends (indicAvailable whisperAvailable : Bool) :
    RouterState :=
  let st0 : RouterState := ⟨false, false, "hi", none⟩
  let st1 :=
    if indicAvailable then
      { st0 with
        indicRegistered := true
        defaultBackend :=
          match st0.defaultBackend with
          | some d => some d
          | none => some "indicconformer" }
    else st0
  let st2 :=
    if whisperAvailable then
      { st1 with
        whisperRegistered := true
        defaultBackend :=
          match st1.defaultBackend with
          | some d => some d
          | none => some "whisper" }
    else st1
  st2

/-- Lookup in the `backends` dict by backend name. -/
def lookupBackendName (st : RouterState) (name : String) :
    Option BackendKind :=
  if name = "indicconformer" ∧ st.indicRegistered = true then
    some BackendKind.indicconformer
  else if name = "whisper" ∧ st.whisperRegistered = true then
    some BackendKind.whisper
  else none

/-- The final fallback of `get_backend_for_language`:
`self.backends[self._default_backend]` when a default is set (a name
absent from the dict would raise `KeyError`), else `None`. -/
def defaultLookup (st : RouterState) : Except String (Option BackendKind) :=
  match st.defaultBackend with
  | some name =>
    match lookupBackendName st name with
    | some b => Except.ok (some b)
    | none => Except.error "KeyError"
  | none => Except.ok none

/-- `STTRouter.get_backend_for_language` (lines 254-276). -/
def get_backend_for_language (st : RouterState) (language : String) :
    Except String (Option BackendKind) :=
  if st.indicRegistered = true ∧ language ∈ indicSupportedLanguages then
    Except.ok (some BackendKind.indicconformer)
  else if language = "en" ∧ st.whisperRegistered = true then
    Except.ok (some BackendKind.whisper)
  else if language = "auto" then
    if st.indicRegistered = true then
      Except.ok (some BackendKind.indicconformer)
    else if st.whisperRegistered = true then
      Except.ok (some BackendKind.whisper)
    else defaultLookup st
  else defaultLookup st

/-- `get_backend_for_language` in state-passing form: the method reads
`self.backends` and `self._default_backend` and performs no assignment,
so the resulting router state is the input state. -/
def getBackendForLanguageS (st : RouterState) (language : String) :
    Except String (Option BackendKind) × RouterState :=
  (get_backend_for_language st language, st)

/-- The external model calls behind the two backends (collaborator
boundary): the Indic ONNX encode/decode chain returns text (its asset
loading is lazy, inside the call); `whisperLoad` is the eager Whisper
model construction performed by `WhisperBackend._load_model`; the
Whisper model call returns text, a language probability and a detected
language. A Python exception is an `Except.error`. -/
structure Models where
  indicModel : List ℚ → Except String String
  whisperLoad : Except String Unit
  whisperModel : List ℚ → Except String (String × ℚ × String)

/-- `IndicConformerBackend.transcribe` (lines 134-148): the model call
runs under `try`; on success the text is stripped and paired with the
fixed confidence 0.85 and the backend's construction language; any
exception is caught and an empty zero-confidence result returned. -/
def indicBackendTranscribe (models : Models) (lang : String)
    (audio : List ℚ) : TranscriptionResult :=
  match models.indicModel audio with
  | Except.ok text => ⟨text.trim, 85 / 100, lang, "indicconformer"⟩
  | Except.error _ => ⟨"", 0, lang, "indicconformer"⟩

/-- `WhisperBackend.transcribe` (lines 197-221): `self._load_model()`
at line 198 runs before the `try` at line 199, so a failure of the
eager model load propagates uncaught; inside the `try`, on success the
joined segment text is stripped and paired with the model-reported
language probability and detected language, and any exception is caught
and an empty zero-confidence English result returned. -/
def whisperBackendTranscribe (models : Models) (audio : List ℚ) :
    Except String TranscriptionResult :=
  match models.whisperLoad with
  | Except.error e => Except.error e
  | Except.ok _ =>
    match models.whisperModel audio with
    | Except.ok (text, conf, lang) =>
      Except.ok ⟨text.trim, conf, lang, "whisper"⟩
    | Except.error _ => Except.ok ⟨"", 0, "en", "whisper"⟩

/-- `STTRouter.transcribe` (lines 278-288): resolve the backend; when
none resolves, return the sentinel result with backend `'none'`;
otherwise delegate to the resolved backend. -/
def routerTranscribe (st : RouterState) (models : Models)
    (audio : List ℚ) (language : String) :
    Except String TranscriptionResult :=
  match get_backend_for_language st language with
  | Except.error e => Except.error e
  | Except.ok none => Except.ok ⟨"", 0, language, "none"⟩
  | Except.ok (some BackendKind.indicconformer) =>
    Except.ok (indicBackendTranscribe models st.indicLanguage audio)
  | Except.ok (some BackendKind.whisper) =>
    whisperBackendTranscribe models audio

/-- `STTRouter.transcribe` in state-passing form: the method performs no
assignment to `self`, so the resulting router state is the input state. -/
def routerTranscribeS (st : RouterState) (models : Models)
    (audio : List ℚ) (language : String) :
    Except String TranscriptionResult × RouterState :=
  (routerTranscribe st models audio language, st)

/-- The JSON body sent by `STTHandler._handle_transcribe`; `error` is the
optional `error` key. -/
structure STTResponse where
  text : String
  confidence : ℚ
  language : String
  backend : String
  error : Option String
deriving DecidableEq

/-- `STTHandler._handle_transcribe` (lines 350-395) after audio
decoding: audio shorter than 1600 samples (100 ms at 16 kHz) is answered
with the empty sentinel and an error note, without consulting the
router; otherwise the router's result is serialized with no error key. -/
def handleTranscribe (st : RouterState) (models : Models)
    (language : String) (audio : List ℚ) : Except String STTResponse :=
  if audio.length < 1600 then
    Except.ok ⟨"", 0, language, "none", some "Audio too short (min 100ms)"⟩
  else
    match routerTranscribe st models audio language with
    | Except.error e => Except.error e
    | Except.ok r => Except.ok ⟨r.text, r.confidence, r.language, r.backend, none⟩

/-- Concrete model environment whose loads and calls always succeed. -/
def okModels : Models :=
  ⟨fun _ => Except.ok "abc", Except.ok (),
   fun _ => Except.ok ("abc", 1 / 2, "en")⟩

/-- Concrete model environment whose model calls raise while the eager
Whisper load succeeds. -/
def failModels : Models :=
  ⟨fun _ => Except.error "missing encoder.onnx", Except.ok (),
   fun _ => Except.error "numeric failure"⟩

/-- Concrete model environment whose eager Whisper load raises. -/
def loadFailModels : Models :=
  ⟨fun _ => Except.error "missing encoder.onnx",
   Except.error "whisper load failure",
   fun _ => Except.error "numeric failure"⟩

/-! ### Helper lemmas for the PCM conversion and token safety claims -/

lemma int16OfLE_bounds (b0 b1 : Fin 256) :
    -32768 ≤ int16OfLE b0 b1 ∧ int16OfLE b0 b1 < 32768 := by
  have h0 := b0.isLt
  have h1 := b1.isLt
  unfold int16OfLE
  by_cases h : b0.val + 256 * b1.val < 32768
  · rw [if_pos h]
    constructor <;> omega
  · rw [if_neg h]
    constructor <;> omega

lemma pcm16Samples_length : ∀ bs : List (Fin 256),
    (pcm16Samples bs).length = bs.length / 2
  | [] => rfl
  | [_] => by simp [pcm16Samples]
  | _ :: _ :: rest => by
    simp only [pcm16Samples, List.length_cons, pcm16Samples_length rest]
    omega

lemma pcm16Samples_get : ∀ (bs : List (Fin 256)) (i : ℕ) (b0 b1 : Fin 256),
    bs.get? (2 * i) = some b0 → bs.get? (2 * i + 1) = some b1 →
    (pcm16Samples bs).get? i = some (((int16OfLE b0 b1 : ℤ) : ℚ) / 32768)
  | [], _, _, _, h0, _ => by simp at h0
  | [_], i, _, _, h0, h1 => by
    cases i with
    | zero => simp at h1
    | succ n =>
      rw [List.get?_eq_none.mpr (by simp; omega)] at h0
      exact absurd h0 (by simp)
  | a :: b :: rest, i, b0, b1, h0, h1 => by
    cases i with
    | zero =>
      simp only [Nat.mul_zero, List.get?_cons_zero, Nat.zero_add,
        List.get?_cons_succ, Option.some_inj] at h0 h1
      subst h0
      subst h1
      rfl
    | succ n =>
      have e0 : 2 * (n + 1) = 2 * n + 1 + 1 := by ring
      have e1 : 2 * (n + 1) + 1 = 2 * n + 1 + 1 + 1 := by ring
      rw [e0, List.get?_cons_succ, List.get?_cons_succ] at h0
      rw [e1, List.get?_cons_succ, List.get?_cons_succ] at h1
      have := pcm16Samples_get rest n b0 b1 h0 h1
      simpa [pcm16Samples] using this

lemma pcm16Samples_range : ∀ bs : List (Fin 256),
    ∀ q ∈ pcm16Samples bs, -1 ≤ q ∧ q < 1
  | [] => by simp [pcm16Samples]
  | [_] => by simp [pcm16Samples]
  | b0 :: b1 :: rest => by
    intro q hq
    simp only [pcm16Samples, List.mem_cons] at hq
    rcases hq with h | h
    · subst h
      obtain ⟨hl, hr⟩ := int16OfLE_bounds b0 b1
      constructor
      · rw [le_div_iff₀ (by norm_num : (0 : ℚ) < 32768)]
        have : ((-32768 : ℤ) : ℚ) ≤ ((int16OfLE b0 b1 : ℤ) : ℚ) := by
          exact_mod_cast hl
        push_cast at this ⊢
        linarith
      · rw [div_lt_one (by norm_num : (0 : ℚ) < 32768)]
        exact_mod_cast hr
    · exact pcm16Samples_range rest q h

lemma ctcTokenParts_mem (vocab : List String) :
    ∀ preds t, t ∈ ctcTokenParts vocab preds →
      t ∈ vocab ∧ t ∉ specialTokens := by
  intro preds
  induction preds with
  | nil => intro t h; simp [ctcTokenParts] at h
  | cons idx rest ih =>
    intro t h
    simp only [ctcTokenParts] at h
    by_cases h256 : idx = 256
    · rw [if_pos h256] at h
      exact ih t h
    · rw [if_neg h256] at h
      by_cases hlen : idx < vocab.length
      · rw [dif_pos hlen] at h
        by_cases hsp : vocab.get ⟨idx, hlen⟩ ∈ specialTokens
        · rw [if_pos hsp] at h
          exact ih t h
        · rw [if_neg hsp] at h
          rcases List.mem_cons.mp h with h1 | h1
          · subst h1
            exact ⟨List.get_mem vocab idx hlen, hsp⟩
          · exact ih t h1
      · rw [dif_neg hlen] at h
        exact ih t h

lemma get_backend_registered_ok (ia wa : Bool) (lang : String) :
    ∃ r, get_backend_for_language (registerBackends ia wa) lang
      = Except.ok r := by
  cases ia <;> cases wa
  · have hst : registerBackends false false = ⟨false, false, "hi", none⟩ :=
      rfl
    rw [hst]
    unfold get_backend_for_language defaultLookup
    split_ifs <;> exact ⟨_, rfl⟩
  · have hst : registerBackends false true
        = ⟨false, true, "hi", some "whisper"⟩ := rfl
    rw [hst]
    unfold get_backend_for_language defaultLookup
    split_ifs <;> exact ⟨_, rfl⟩
  · have hst : registerBackends true false
        = ⟨true, false, "hi", some "indicconformer"⟩ := rfl
    rw [hst]
    unfold get_backend_for_language defaultLookup
    split_ifs <;> exact ⟨_, rfl⟩
  · have hst : registerBackends true true
        = ⟨true, true, "hi", some "indicconformer"⟩ := rfl
    rw [hst]
    unfold get_backend_for_language defaultLookup
    split_ifs <;> exact ⟨_, rfl⟩

/-! ## Claim theorems -/

/-- Claim C1: for every per-frame log-probability matrix over the joint
vocabulary, `decode_ctc` equals the composition of the eight specified
CTC decoding steps in order: mask selection, column filtering,
log-softmax re-normalization, per-time-step arg-max, collapsing of
consecutive repeats (first token kept), blank dropping, per-language
vocabulary mapping, and concatenation with the continuation marker
turned into a space and surrounding whitespace trimmed. -/
theorem decode_ctc_eight_steps_c1 (m : CTCModel)
    (logprobs : List (List ℝ)) :
    decode_ctc m logprobs = ctcSpecPipeline m logprobs := by
  simp only [decode_ctc, ctcSpecPipeline, joinTokens, collapseFrom_neg_one,
    ctcTokenParts_eq_filter_map]

/-- Claim C6: applying log-softmax a second time to the filtered
log-probabilities leaves the per-time-step arg-max path unchanged, both
row-wise and over the whole matrix. -/
theorem ctc_argmax_stable_c6 (filtered : List (List ℝ)) (row : List ℝ) :
    argmaxIdx (logSoftmaxRow row)
      = argmaxIdx (logSoftmaxRow (logSoftmaxRow row))
  ∧ (filtered.map logSoftmaxRow).map argmaxIdx
      = ((filtered.map logSoftmaxRow).map logSoftmaxRow).map argmaxIdx := by
  constructor
  · rw [logSoftmaxRow_idem]
  · have h : (filtered.map logSoftmaxRow).map logSoftmaxRow
        = filtered.map logSoftmaxRow := by
      rw [List.map_map]
      apply List.map_congr_left
      intro a _
      exact logSoftmaxRow_idem a
    rw [h]

/-- Claim C10: the token-mapping stage of `decode_ctc` is total over
every arg-max path: the blank index 256 is skipped, an index at or
beyond the vocabulary length is skipped rather than raising, and every
emitted token comes from the vocabulary and is never a special token. -/
theorem decode_ctc_token_safety_c10 (vocab : List String)
    (preds : List ℕ) (t : String) (idx : ℕ) (rest : List ℕ) :
    (t ∈ ctcTokenParts vocab preds → t ∈ vocab ∧ t ∉ specialTokens)
  ∧ ctcTokenParts vocab (256 :: rest) = ctcTokenParts vocab rest
  ∧ (vocab.length ≤ idx →
      ctcTokenParts vocab (idx :: rest) = ctcTokenParts vocab rest) := by
  refine ⟨ctcTokenParts_mem vocab preds t, by simp [ctcTokenParts], ?_⟩
  intro hle
  by_cases h256 : idx = 256
  · simp [ctcTokenParts, h256]
  · have h1 : ¬idx < vocab.length := not_lt.mpr hle
    simp [ctcTokenParts, h256, h1]

/-- Claim C10 witness: a concrete vocabulary and path exercising the
membership and skipping facts. -/
theorem decode_ctc_token_safety_c10_witness :
    ("a" ∈ (["a", "▁b", "<unk>"] : List String) ∧ "a" ∉ specialTokens)
  ∧ ctcTokenParts ["a", "▁b", "<unk>"] (7 :: [0])
      = ctcTokenParts ["a", "▁b", "<unk>"] [0] :=
  ⟨(decode_ctc_token_safety_c10 ["a", "▁b", "<unk>"] [0, 256, 2, 7, 1]
      "a" 7 [0]).1 (by decide),
   (decode_ctc_token_safety_c10 ["a", "▁b", "<unk>"] [0, 256, 2, 7, 1]
      "a" 7 [0]).2.2 (by decide)⟩

/-- Claim C9: for every even-length byte string of little-endian 16-bit
PCM samples, `pcm16_to_float32` returns exactly one value per two input
bytes, each equal to the signed 16-bit sample divided by 32768, hence
lying in the interval from -1 inclusive to 1 exclusive. -/
theorem pcm16_to_float32_c9 (pcmBytes : List (Fin 256))
    (heven : pcmBytes.length % 2 = 0) :
    ∃ out, pcm16_to_float32 pcmBytes = some out
      ∧ 2 * out.length = pcmBytes.length
      ∧ (∀ i b0 b1, pcmBytes.get? (2 * i) = some b0 →
          pcmBytes.get? (2 * i + 1) = some b1 →
          out.get? i = some (((int16OfLE b0 b1 : ℤ) : ℚ) / 32768))
      ∧ ∀ q ∈ out, -1 ≤ q ∧ q < 1 := by
  refine ⟨pcm16Samples pcmBytes, ?_, ?_, ?_, pcm16Samples_range pcmBytes⟩
  · simp [pcm16_to_float32, heven]
  · rw [pcm16Samples_length]
    omega
  · intro i b0 b1 h0 h1
    exact pcm16Samples_get pcmBytes i b0 b1 h0 h1

/-- Claim C9 witness: the byte pair 0x00 0x80 decodes to the single
sample -1. -/
theorem pcm16_to_float32_c9_witness :
    ∃ out, pcm16_to_float32 [(0 : Fin 256), (128 : Fin 256)] = some out
      ∧ 2 * out.length = 2 ∧ ∀ q ∈ out, -1 ≤ q ∧ q < 1 := by
  obtain ⟨out, h1, h2, _, h4⟩ :=
    pcm16_to_float32_c9 [(0 : Fin 256), (128 : Fin 256)] (by decide)
  exact ⟨out, h1, by simpa using h2, h4⟩

/-- Claim C2: a hint naming a language in the Indic backend's declared
supported set resolves to the Indic backend when registered; the hint
"en" resolves to the Whisper backend when registered; the hint "auto"
resolves to the Indic backend when registered, else to Whisper. -/
theorem router_resolution_c2 (ia wa : Bool) (lang : String) :
    (ia = true → lang ∈ indicSupportedLanguages →
      get_backend_for_language (registerBackends ia wa) lang
        = Except.ok (some BackendKind.indicconformer))
  ∧ (wa = true →
      get_backend_for_language (registerBackends ia wa) "en"
        = Except.ok (some BackendKind.whisper))
  ∧ (ia = true →
      get_backend_for_language (registerBackends ia wa) "auto"
        = Except.ok (some BackendKind.indicconformer))
  ∧ (ia = false → wa = true →
      get_backend_for_language (registerBackends ia wa) "auto"
        = Except.ok (some BackendKind.whisper)) := by
  refine ⟨?_, ?_, ?_, ?_⟩
  · intro hia hmem
    subst hia
    have hreg : (registerBackends true wa).indicRegistered = true := by
      cases wa <;> rfl
    unfold get_backend_for_language
    rw [if_pos ⟨hreg, hmem⟩]
  · intro hwa
    subst hwa
    cases ia <;> rfl
  · intro hia
    subst hia
    cases wa <;> rfl
  · intro hia hwa
    subst hia
    subst hwa
    rfl

/-- Claim C2 witness: Tamil goes to the Indic backend, English to
Whisper, and auto falls back to Whisper when the Indic backend is not
registered. -/
theorem router_resolution_c2_witness :
    get_backend_for_language (registerBackends true true) "ta"
      = Except.ok (some BackendKind.indicconformer)
  ∧ get_backend_for_language (registerBackends true true) "en"
      = Except.ok (some BackendKind.whisper)
  ∧ get_backend_for_language (registerBackends false true) "auto"
      = Except.ok (some BackendKind.whisper) :=
  ⟨(router_resolution_c2 true true "ta").1 rfl (by decide),
   (router_resolution_c2 true true "ta").2.1 rfl,
   (router_resolution_c2 false true "ta").2.2.2 rfl rfl⟩

/-- Claim C3 counterexample: with no backend registered, a transcription
request is answered with a normal (Except.ok) response carrying an empty
transcript, backend "none" and no error field at all: the failure is a
silently returned empty transcript, not an error event. -/
theorem no_backend_silent_empty_c3_counterexample :
    handleTranscribe (registerBackends false false) okModels "xx"
        (List.replicate 1600 0)
      = Except.ok ⟨"", 0, "xx", "none", none⟩ := by
  have hlen : ¬(List.replicate 1600 (0 : ℚ)).length < 1600 := by
    simp only [List.length_replicate]
    omega
  unfold handleTranscribe
  rw [if_neg hlen]
  rfl

/-- Claim C3 amended: when no backend is registered, the router returns
the sentinel result with backend "none", empty text and zero confidence
(no backend invoked), and the handler serializes it as a normal response
without an error key. -/
theorem no_backend_sentinel_c3 (models : Models) (audio : List ℚ)
    (lang : String) :
    routerTranscribe (registerBackends false false) models audio lang
      = Except.ok ⟨"", 0, lang, "none"⟩
  ∧ (1600 ≤ audio.length →
      handleTranscribe (registerBackends false false) models lang audio
        = Except.ok ⟨"", 0, lang, "none", none⟩) := by
  have hget : get_backend_for_language (registerBackends false false) lang
      = Except.ok none := by
    have hst : registerBackends false false = ⟨false, false, "hi", none⟩ :=
      rfl
    rw [hst]
    unfold get_backend_for_language defaultLookup
    simp
  have hroute : routerTranscribe (registerBackends false false) models
      audio lang = Except.ok ⟨"", 0, lang, "none"⟩ := by
    unfold routerTranscribe
    rw [hget]
  refine ⟨hroute, ?_⟩
  intro hlen
  unfold handleTranscribe
  rw [if_neg (by omega), hroute]

/-- Claim C3 witness: a concrete long-enough audio buffer with no
registered backend yields the sentinel response. -/
theorem no_backend_sentinel_c3_witness :
    handleTranscribe (registerBackends false false) okModels "mr"
        (List.replicate 1600 0)
      = Except.ok ⟨"", 0, "mr", "none", none⟩ :=
  (no_backend_sentinel_c3 okModels (List.replicate 1600 0) "mr").2
    (by simp only [List.length_replicate]; omega)

/-- Claim C4 counterexample: the Indic model call raises (missing assets
or numeric failure), yet the router transcription completes normally
with an Except.ok empty-text zero-confidence result instead of failing
with ModelUnavailable or InferenceError. -/
theorem backend_failure_swallowed_c4_counterexample :
    routerTranscribe (registerBackends true true) failModels [] "hi"
      = Except.ok ⟨"", 0, "hi", "indicconformer"⟩ := by
  rfl

/-- Claim C4 amended: the Indic backend's transcribe catches every
exception of its model call (its assets load lazily inside that call,
so missing assets are caught too) and completes normally with an
empty-text zero-confidence result; the Whisper backend likewise
swallows exceptions of the model call into an empty result, but a
failure of its eager model load, which runs before the try, propagates
uncaught; in no case is a typed ModelUnavailable or InferenceError
produced. -/
theorem backend_failure_swallowed_c4 (models : Models) (lang : String)
    (audio : List ℚ) (e1 e2 e3 : String) :
    (models.indicModel audio = Except.error e1 →
      indicBackendTranscribe models lang audio
        = ⟨"", 0, lang, "indicconformer"⟩)
  ∧ (models.whisperLoad = Except.ok () →
      models.whisperModel audio = Except.error e2 →
      whisperBackendTranscribe models audio
        = Except.ok ⟨"", 0, "en", "whisper"⟩)
  ∧ (models.whisperLoad = Except.error e3 →
      whisperBackendTranscribe models audio = Except.error e3) := by
  refine ⟨?_, ?_, ?_⟩
  · intro h
    unfold indicBackendTranscribe
    rw [h]
  · intro hl h
    unfold whisperBackendTranscribe
    rw [hl, h]
  · intro hl
    unfold whisperBackendTranscribe
    rw [hl]

/-- Claim C4 witness: the raising model environments produce the
swallowed empty results for the model calls and the propagated error
for the eager Whisper load. -/
theorem backend_failure_swallowed_c4_witness :
    indicBackendTranscribe failModels "hi" []
      = ⟨"", 0, "hi", "indicconformer"⟩
  ∧ whisperBackendTranscribe failModels []
      = Except.ok ⟨"", 0, "en", "whisper"⟩
  ∧ whisperBackendTranscribe loadFailModels []
      = Except.error "whisper load failure" :=
  ⟨(backend_failure_swallowed_c4 failModels "hi" []
      "missing encoder.onnx" "numeric failure" "e").1 rfl,
   (backend_failure_swallowed_c4 failModels "hi" []
      "missing encoder.onnx" "numeric failure" "e").2.1 rfl rfl,
   (backend_failure_swallowed_c4 loadFailModels "hi" []
      "missing encoder.onnx" "numeric failure"
      "whisper load failure").2.2 rfl⟩

/-- Claim C5: audio shorter than 1600 samples (100 ms at 16 kHz) is
answered with an empty-text zero-confidence response, and no inference
is attempted: the response is identical for every router state and
every model environment. -/
theorem short_audio_no_inference_c5 (st : RouterState) (models : Models)
    (lang : String) (audio : List ℚ) (h : audio.length < 1600) :
    handleTranscribe st models lang audio
      = Except.ok ⟨"", 0, lang, "none", some "Audio too short (min 100ms)"⟩
  ∧ ∀ st2 models2, handleTranscribe st2 models2 lang audio
      = handleTranscribe st models lang audio := by
  constructor
  · unfold handleTranscribe
    rw [if_pos h]
  · intro st2 models2
    unfold handleTranscribe
    rw [if_pos h, if_pos h]

/-- Claim C5 witness: empty audio is answered with the too-short
sentinel. -/
theorem short_audio_no_inference_c5_witness :
    handleTranscribe (registerBackends true true) okModels "hi" []
      = Except.ok ⟨"", 0, "hi", "none", some "Audio too short (min 100ms)"⟩
    :=
  (short_audio_no_inference_c5 (registerBackends true true) okModels "hi"
    [] (by decide)).1

/-- Claim C7: the backend registry is built once by `registerBackends`
with registration order defining priority (the default backend is the
first one registered); resolution and transcription leave the router
state unchanged; and resolution never raises on states built at
registration, whatever the availability outcome was. -/
theorem router_registry_immutable_c7 (st : RouterState) (models : Models)
    (audio : List ℚ) (lang : String) (ia wa : Bool) :
    (getBackendForLanguageS st lang).2 = st
  ∧ (routerTranscribeS st models audio lang).2 = st
  ∧ (registerBackends true wa).defaultBackend = some "indicconformer"
  ∧ (registerBackends false true).defaultBackend = some "whisper"
  ∧ ∃ r, get_backend_for_language (registerBackends ia wa) lang
      = Except.ok r := by
  refine ⟨rfl, rfl, ?_, rfl, get_backend_registered_ok ia wa lang⟩
  cases wa <;> rfl

/-- Claim C8 counterexample: an explicit "ta" hint routes to the Indic
backend, but the result's language field is the backend's
construction-time language "hi", not the requested "ta". -/
theorem result_language_c8_counterexample :
    routerTranscribe (registerBackends true true) okModels [] "ta"
      = Except.ok ⟨"abc".trim, 85 / 100, "hi", "indicconformer"⟩
  ∧ ("hi" : String) ≠ "ta" := by
  refine ⟨rfl, by decide⟩

/-- Claim C8 amended: every result carries the identifier of the backend
that produced it; its language field is the backend's configured
language (the Indic backend's construction-time language, always "hi"
in the registered router) or Whisper's model-reported language, not
necessarily the request's hint. -/
theorem result_language_backend_c8 (models : Models) (audio : List ℚ)
    (lang text : String) (wa : Bool) (conf : ℚ) (rlang : String) :
    (registerBackends true wa).indicLanguage = "hi"
  ∧ (lang ∈ indicSupportedLanguages →
      models.indicModel audio = Except.ok text →
      routerTranscribe (registerBackends true wa) models audio lang
        = Except.ok ⟨text.trim, 85 / 100,
            (registerBackends true wa).indicLanguage, "indicconformer"⟩)
  ∧ (models.whisperLoad = Except.ok () →
      models.whisperModel audio = Except.ok (text, conf, rlang) →
      routerTranscribe (registerBackends false true) models audio "en"
        = Except.ok ⟨text.trim, conf, rlang, "whisper"⟩) := by
  refine ⟨by cases wa <;> rfl, ?_, ?_⟩
  · intro hmem hok
    have hreg : (registerBackends true wa).indicRegistered = true := by
      cases wa <;> rfl
    have hget : get_backend_for_language (registerBackends true wa) lang
        = Except.ok (some BackendKind.indicconformer) := by
      unfold get_backend_for_language
      rw [if_pos ⟨hreg, hmem⟩]
    unfold routerTranscribe
    rw [hget]
    unfold indicBackendTranscribe
    rw [hok]
  · intro hload hok
    have hget : get_backend_for_language (registerBackends false true) "en"
        = Except.ok (some BackendKind.whisper) := rfl
    unfold routerTranscribe
    rw [hget]
    unfold whisperBackendTranscribe
    rw [hload, hok]

/-- Claim C8 witness: a "ta"-hinted request through a succeeding Indic
model yields the Indic backend identifier and the configured language. -/
theorem result_language_backend_c8_witness :
    routerTranscribe (registerBackends true true) okModels [] "ta"
      = Except.ok ⟨("abc").trim, 85 / 100,
          (registerBackends true true).indicLanguage, "indicconformer"⟩ :=
  (result_language_backend_c8 okModels [] "ta" "abc" true (1 / 2) "en").2.1
    (by decide) rfl
